import Mathlib

/-!
Verification of the flow execution engine of the Agentic-Flow repository.

The engine is `handleProcessFlow` in `src/App.tsx`: a bounded traversal of a
directed graph of agent nodes, invoking an agent service at each AGENT /
CONDITIONAL_AGENT node, branching on conditional keywords, and appending log
entries as it goes.  The definitions below are a shallow embedding of that
function and of the data model in `src/types.ts`:

* machine state that the run touches (the React state pieces `processingLog`,
  `finalOutput`, `nodeErrors`, `nodes`) is threaded explicitly through
  `EngState`;
* the nondeterministic `new Date()` taken at each `addLog` call is modelled by
  a clock function `clock : Nat -> Nat` applied to the index of the entry
  being appended (entry `i` of the log gets timestamp `clock i`);
* the asynchronous `processAgentTask` service is modelled as an explicit
  deterministic function `svc : String -> String -> Bool -> Except String
  AgentResult` (the `enableInternetSearch` flag, possibly `undefined` in the
  source, is passed through `Option.getD false`, matching JS truthiness);
* the loop `for (let i = 0; i < nodes.length + 10; i++)` is modelled by a
  fuel parameter initialised to `nodes.length + 10`; running out of fuel
  returns the state unchanged together with the marker outcome
  `Outcome.exhausted`, mirroring the fact that the source loop simply falls
  through with no further log entry;
* every `break` of the source loop is tagged with an `Outcome` constructor
  recording which exit was taken (the outcome is observable in the source as
  the final log entry / `nodeErrors` update of the run);
* `String.prototype.toLowerCase` / `includes` / `trim` / `substring` are
  modelled structurally over the character list (`Char.toLower` for ASCII
  case folding, contiguous sublist containment for `includes`), so that
  concrete runs evaluate inside the kernel.
-/

namespace AgenticFlow

/-- Node kinds, from `NodeType` in `src/types.ts`. -/
inductive NodeType
  | START
  | AGENT
  | END
  | CONDITIONAL_AGENT
deriving DecidableEq, Repr

/-- The string value of the enum, used in log messages (`currentNode.type` interpolation). -/
def NodeType.str : NodeType → String
  | .START => "START"
  | .AGENT => "AGENT"
  | .END => "END"
  | .CONDITIONAL_AGENT => "CONDITIONAL_AGENT"

/-- Web grounding source, from `GroundingChunkWeb` in `src/types.ts`. -/
structure GroundingChunkWeb where
  uri : String
  title : String
deriving DecidableEq, Repr

/-- Grounding metadata chunk, from `GroundingChunk` in `src/types.ts`. -/
structure GroundingChunk where
  web : Option GroundingChunkWeb
deriving DecidableEq, Repr

/-- A flowchart node, from `AgentNode` in `src/types.ts`. -/
structure AgentNode where
  id : String
  type : NodeType
  description : String
  x : Int
  y : Int
  output : Option String
  lastProcessedInput : Option String
  enableInternetSearch : Option Bool
  groundingMetadata : List GroundingChunk
deriving DecidableEq, Repr

/-- A flowchart edge, from `AgentEdge` in `src/types.ts` (an absent
`conditionKeyword` is identified with `""`, which is equally falsy in JS). -/
structure AgentEdge where
  id : String
  sourceId : String
  targetId : String
  conditionKeyword : String
deriving DecidableEq, Repr

/-- Log entry status, from `ProcessLogEntry` in `src/types.ts`. -/
inductive LogStatus
  | info
  | success
  | error
  | processing
deriving DecidableEq, Repr

/-- A processing-log entry, from `ProcessLogEntry` in `src/types.ts`.
Timestamps are `Nat` stand-ins for the `Date` taken at emission. -/
structure ProcessLogEntry where
  timestamp : Nat
  message : String
  status : LogStatus
  nodeId : Option String
  groundingMetadata : Option (List GroundingChunk)
deriving DecidableEq, Repr

/-- Result of one agent invocation, the resolution type of `processAgentTask`
in `src/services/geminiService.ts`. -/
structure AgentResult where
  text : String
  groundingMetadata : Option (List GroundingChunk)
deriving DecidableEq, Repr

/-- The agent invocation service: role description, input, search flag.
`Except.error msg` models a rejected promise with `err.message = msg`. -/
abbrev AgentService := String → String → Bool → Except String AgentResult

/-- JS `hay.toLowerCase().includes(needle.toLowerCase())` (ASCII folding). -/
def jsIncludes (hay needle : String) : Bool :=
  decide ((needle.toList.map Char.toLower) <:+: (hay.toList.map Char.toLower))

/-- JS `s.trim()`: strip whitespace from both ends (structural, over the
character list, so that concrete runs evaluate inside the kernel). -/
def jsTrim (s : String) : String :=
  String.mk ((s.toList.dropWhile Char.isWhitespace).reverse.dropWhile
    Char.isWhitespace).reverse

/-- JS `s.substring(0, n)`: the first `n` characters. -/
def jsTake (s : String) (n : Nat) : String :=
  String.mk (s.toList.take n)

/-- The mutable state that `handleProcessFlow` reads and writes during a run,
plus two pieces of instrumentation that make effects observable: `visited`
(the local `visitedNodes` set, as a list) and `calls` (the arguments of every
`processAgentTask` invocation in order). -/
structure EngState where
  nodesState : List AgentNode
  edgesState : List AgentEdge
  log : List ProcessLogEntry
  finalOutput : Option String
  nodeErrors : List String
  visited : List String
  calls : List (String × String × Bool)
deriving DecidableEq, Repr

/-- `addLog` from `src/App.tsx` line 83: appends one entry; the `new Date()`
timestamp is `clock` applied to the index of the entry in the log. -/
def addLog (clock : Nat → Nat) (st : EngState) (message : String)
    (status : LogStatus) (nodeId : Option String)
    (grounding : Option (List GroundingChunk)) : EngState :=
  { st with
    log := st.log ++
      [{ timestamp := clock st.log.length, message := message, status := status,
         nodeId := nodeId, groundingMetadata := grounding }] }

/-- How a run ended; each constructor tags one exit of the source loop
(observable through the final log entry and `nodeErrors`). `exhausted` is the
silent fall-through of the `for` loop when its bound is used up. -/
inductive Outcome
  | emptyInput
  | startMissing
  | completed (payload : String)
  | cycleDetected (nodeId : String)
  | noMatchingBranch (nodeId : String)
  | invocationFailed (nodeId : String)
  | deadEnd (nodeId : String)
  | corruptGraph (nodeId : String)
  | exhausted
deriving DecidableEq, Repr

/-- Line 287: `setNodes(... ({ ...n, output: undefined, lastProcessedInput:
undefined, groundingMetadata: [] }))` — the per-run reset of node bookkeeping. -/
def resetNodes (ns : List AgentNode) : List AgentNode :=
  ns.map fun n =>
    { n with output := none, lastProcessedInput := none, groundingMetadata := [] }

/-- Line 320: record the input an agent node is about to process. -/
def setLastInput (ns : List AgentNode) (nid : String) (inp : String) : List AgentNode :=
  ns.map fun n => if n.id = nid then { n with lastProcessedInput := some inp } else n

/-- Line 324: record the output and grounding metadata of an agent node. -/
def setOutput (ns : List AgentNode) (nid : String) (out : String)
    (gm : List GroundingChunk) : List AgentNode :=
  ns.map fun n =>
    if n.id = nid then { n with output := some out, groundingMetadata := gm } else n

/-- Line 311: record the payload received by the END node as both fields. -/
def setEndOutput (ns : List AgentNode) (nid : String) (inp : String) : List AgentNode :=
  ns.map fun n =>
    if n.id = nid then { n with lastProcessedInput := some inp, output := some inp }
    else n

/-- The branch predicate of line 330: `edge.conditionKeyword &&
currentInput.toLowerCase().includes(edge.conditionKeyword.toLowerCase())`. -/
def condPred (t : String) (e : AgentEdge) : Bool :=
  (e.conditionKeyword != "") && jsIncludes t e.conditionKeyword

/-- Lines 329–330: the outgoing edges of a CONDITIONAL_AGENT in declaration
order, and the first whose keyword is non-empty and matches the output. -/
def condNext (edges : List AgentEdge) (srcId : String) (t : String) : Option AgentEdge :=
  (edges.filter fun e => e.sourceId == srcId).find? (condPred t)

/-- Lines 336 / 343: the single outgoing edge of a START or plain AGENT node
(the first one in edge-list order, if several exist). -/
def plainNext (edges : List AgentEdge) (srcId : String) : Option AgentEdge :=
  edges.find? fun e => e.sourceId == srcId

/-- Lines 347–357: follow the chosen edge.  `none` is the dead-end exit
(line 347), a missing target the corrupt-graph exit (line 353); otherwise the
target node is handed back for the next iteration. -/
def followEdge (nodes : List AgentNode) (clock : Nat → Nat) (cur : AgentNode)
    (edgeOpt : Option AgentEdge) (st : EngState) :
    Except (EngState × Outcome) (AgentNode × EngState) :=
  match edgeOpt with
  | none =>
    let st := addLog clock st
      ("Node \x27" ++ cur.description ++ "\x27 has no outgoing connection. Flow halted.")
      .error (some cur.id) none
    .error ({ st with nodeErrors := st.nodeErrors ++ [cur.id] }, .deadEnd cur.id)
  | some edge =>
    match nodes.find? (fun n => n.id == edge.targetId) with
    | none =>
      let st := addLog clock st "Target node not found. Flow corrupted."
        .error (some cur.id) none
      .error ({ st with nodeErrors := st.nodeErrors ++ [cur.id] }, .corruptGraph cur.id)
    | some nxt => .ok (nxt, st)

/-- The main processing loop of `handleProcessFlow` (lines 300–358), with the
iteration count turned into fuel.  Each arm mirrors one block of the loop
body, in source order: cycle check, END check, AGENT/CONDITIONAL_AGENT
processing (service call, branch selection), START edge selection, and the
shared edge-following tail. -/
def go (nodes : List AgentNode) (edges : List AgentEdge) (svc : AgentService)
    (clock : Nat → Nat) : Nat → AgentNode → String → EngState → EngState × Outcome
  | 0, _, _, st => (st, .exhausted)
  | fuel + 1, cur, input, st =>
    if cur.id ∈ st.visited then
      let st := addLog clock st ("Cycle detected at node " ++ cur.id ++ ". Halting.")
        .error (some cur.id) none
      ({ st with nodeErrors := st.nodeErrors ++ [cur.id] }, .cycleDetected cur.id)
    else
      let st := { st with visited := cur.id :: st.visited }
      if cur.type = NodeType.END then
        let st := { st with finalOutput := some input,
                            nodesState := setEndOutput st.nodesState cur.id input }
        (addLog clock st "Reached END node. Final output set." .success (some cur.id) none,
         .completed input)
      else if cur.type = NodeType.AGENT ∨ cur.type = NodeType.CONDITIONAL_AGENT then
        let st := { st with nodesState := setLastInput st.nodesState cur.id input,
                            calls := st.calls ++
                              [(cur.description, input, cur.enableInternetSearch.getD false)] }
        match svc cur.description input (cur.enableInternetSearch.getD false) with
        | .error msg =>
          let st := addLog clock st
            ("Error processing agent \x27" ++ cur.description ++ "\x27: " ++ msg)
            .error (some cur.id) none
          ({ st with nodeErrors := st.nodeErrors ++ [cur.id] }, .invocationFailed cur.id)
        | .ok res =>
          let input2 := res.text
          let st := { st with nodesState := setOutput st.nodesState cur.id input2
                                (res.groundingMetadata.getD []) }
          let st := addLog clock st
            (cur.type.str ++ ": \"" ++ jsTake input2 50 ++ "...\"")
            .success (some cur.id) res.groundingMetadata
          if cur.type = NodeType.CONDITIONAL_AGENT then
            match condNext edges cur.id input2 with
            | none =>
              let st := addLog clock st
                "Conditional output did not match any path keywords. Halting."
                .error (some cur.id) none
              ({ st with nodeErrors := st.nodeErrors ++ [cur.id] },
               .noMatchingBranch cur.id)
            | some edge =>
              match followEdge nodes clock cur (some edge) st with
              | .error r => r
              | .ok (nxt, st) => go nodes edges svc clock fuel nxt input2 st
          else
            match followEdge nodes clock cur (plainNext edges cur.id) st with
            | .error r => r
            | .ok (nxt, st) => go nodes edges svc clock fuel nxt input2 st
      else
        match followEdge nodes clock cur (plainNext edges cur.id) st with
        | .error r => r
        | .ok (nxt, st) => go nodes edges svc clock fuel nxt input st

/-- `handleProcessFlow` (lines 279–362): empty-input guard, per-run state
reset, start lookup, then the bounded loop with fuel `nodes.length + 10`. -/
def runFlow (nodes : List AgentNode) (edges : List AgentEdge) (svc : AgentService)
    (clock : Nat → Nat) (initialQuestion : String) : EngState × Outcome :=
  let st0 : EngState :=
    { nodesState := nodes, edgesState := edges, log := [], finalOutput := none,
      nodeErrors := [], visited := [], calls := [] }
  if jsTrim initialQuestion = "" then
    (addLog clock st0 "Initial question cannot be empty." .error none none, .emptyInput)
  else
    let st := { st0 with nodesState := resetNodes nodes }
    let st := addLog clock st
      ("Starting flow with question: \"" ++ initialQuestion ++ "\"") .info none none
    match nodes.find? (fun n => n.type == NodeType.START) with
    | none => (addLog clock st "START node not found." .error none none, .startMissing)
    | some start => go nodes edges svc clock (nodes.length + 10) start initialQuestion st

/-- The enum string with underscores replaced by spaces, as in
`sourceNode.type.replace` with underscores mapped to spaces (line 183). -/
def NodeType.spaced : NodeType → String
  | .CONDITIONAL_AGENT => "CONDITIONAL AGENT"
  | t => t.str

/-- The connection attempt of `handleNodeClick` (lines 176–196), reached when
a connection is pending from `fromId` and a different node `toId` is clicked;
`newId` stands for the fresh `crypto.randomUUID()`.  Returns the new edge
list and the log message/status emitted. -/
def tryConnect (nodes : List AgentNode) (edges : List AgentEdge)
    (fromId toId newId : String) : List AgentEdge × String × LogStatus :=
  match nodes.find? (fun n => n.id == fromId), nodes.find? (fun n => n.id == toId) with
  | some src, some tgt =>
    if src.type ≠ NodeType.END ∧ tgt.type ≠ NodeType.START then
      if (src.type = NodeType.START ∨ src.type = NodeType.AGENT) ∧
          (edges.find? fun e => e.sourceId == fromId).isSome then
        (edges,
         src.type.spaced ++
           " nodes can only have one outgoing connection. Delete existing one first.",
         .error)
      else
        (edges ++ [{ id := newId, sourceId := fromId, targetId := toId,
                     conditionKeyword := "" }],
         "Connected " ++ jsTake src.type.str 10 ++ "... to " ++ jsTake tgt.type.str 10 ++ "...",
         .info)
    else (edges, "Invalid connection attempt.", .error)
  | _, _ => (edges, "Invalid connection attempt.", .error)


set_option maxRecDepth 100000

/-! ## Observation helpers -/

/-- The structural (graph) part of a node: everything except the per-run
bookkeeping fields `output`, `lastProcessedInput`, `groundingMetadata`. -/
def structOf (n : AgentNode) : String × NodeType × String × Int × Int × Option Bool :=
  (n.id, n.type, n.description, n.x, n.y, n.enableInternetSearch)

/-- A log entry without its timestamp. -/
def coreOf (e : ProcessLogEntry) :
    String × LogStatus × Option String × Option (List GroundingChunk) :=
  (e.message, e.status, e.nodeId, e.groundingMetadata)

/-- Everything observable about a finished run except the timestamps inside
the log entries. -/
def coreView (r : EngState × Outcome) :
    (List AgentNode × List AgentEdge × Option String × List String × List String ×
      List (String × String × Bool)) ×
    List (String × LogStatus × Option String × Option (List GroundingChunk)) ×
    Outcome :=
  ((r.1.nodesState, r.1.edgesState, r.1.finalOutput, r.1.nodeErrors, r.1.visited,
    r.1.calls), r.1.log.map coreOf, r.2)

/-- Recognises the `NodeOutput` entries of a run: the success entries emitted
at line 325, whose message starts with the enum string of the node type. -/
def isNodeOutput (e : ProcessLogEntry) : Bool :=
  (e.status == LogStatus.success) &&
    (("AGENT: ".toList.isPrefixOf e.message.toList) ||
     ("CONDITIONAL_AGENT: ".toList.isPrefixOf e.message.toList))

/-! ## List helper lemmas -/

/-- `find?` returns the first element satisfying the predicate: the list
splits around the hit, and everything before it fails the predicate. -/
lemma find?_first_spec {α : Type} (p : α → Bool) :
    ∀ (l : List α) (a : α), l.find? p = some a →
      ∃ l1 l2, l = l1 ++ a :: l2 ∧ p a = true ∧ ∀ x ∈ l1, p x = false := by
  intro l
  induction l with
  | nil => intro a h; simp [List.find?] at h
  | cons hd tl ih =>
    intro a h
    by_cases hp : p hd = true
    · rw [List.find?_cons_of_pos _ hp] at h
      obtain rfl : hd = a := by simpa using h
      exact ⟨[], tl, by simp, hp, by simp⟩
    · rw [List.find?_cons_of_neg _ (by simpa using hp)] at h
      obtain ⟨l1, l2, hsplit, hpa, hpre⟩ := ih a h
      refine ⟨hd :: l1, l2, by simp [hsplit], hpa, ?_⟩
      intro x hx
      rcases List.mem_cons.mp hx with rfl | hx
      · simpa using hp
      · exact hpre x hx

/-! ## Frame lemmas: the structural part of the node list is never written -/

lemma structOf_resetNodes (ns : List AgentNode) :
    (resetNodes ns).map structOf = ns.map structOf := by
  simp only [resetNodes, List.map_map]
  refine List.map_congr_left ?_
  intro n _
  simp [structOf, Function.comp]

lemma structOf_setLastInput (ns : List AgentNode) (nid inp : String) :
    (setLastInput ns nid inp).map structOf = ns.map structOf := by
  simp only [setLastInput, List.map_map]
  refine List.map_congr_left ?_
  intro n _
  by_cases h : n.id = nid <;> simp [structOf, Function.comp, h]

lemma structOf_setOutput (ns : List AgentNode) (nid out : String)
    (gm : List GroundingChunk) :
    (setOutput ns nid out gm).map structOf = ns.map structOf := by
  simp only [setOutput, List.map_map]
  refine List.map_congr_left ?_
  intro n _
  by_cases h : n.id = nid <;> simp [structOf, Function.comp, h]

lemma structOf_setEndOutput (ns : List AgentNode) (nid inp : String) :
    (setEndOutput ns nid inp).map structOf = ns.map structOf := by
  simp only [setEndOutput, List.map_map]
  refine List.map_congr_left ?_
  intro n _
  by_cases h : n.id = nid <;> simp [structOf, Function.comp, h]

/-! ## Run-level invariants, by induction on the loop fuel -/

/-- `finalOutput` stays `none` through every exit except the END exit, where
it becomes the payload carried into END — the payload the `completed`
outcome records. -/
lemma go_finalOutput (nodes : List AgentNode) (edges : List AgentEdge)
    (svc : AgentService) (clock : Nat → Nat) :
    ∀ fuel cur inp st, st.finalOutput = none →
      (go nodes edges svc clock fuel cur inp st).1.finalOutput =
        (match (go nodes edges svc clock fuel cur inp st).2 with
         | .completed p => some p
         | _ => none) := by
  intro fuel
  induction fuel with
  | zero => intro cur inp st h; simp [go, h]
  | succ fuel ih =>
    intro cur inp st h
    by_cases h1 : cur.id ∈ st.visited
    · simp [go, h1, addLog, h]
    · by_cases h2 : cur.type = NodeType.END
      · simp [go, h1, h2, addLog]
      · by_cases h3 : cur.type = NodeType.AGENT ∨ cur.type = NodeType.CONDITIONAL_AGENT
        · cases hsvc : svc cur.description inp (cur.enableInternetSearch.getD false) with
          | error msg => simp [go, h1, h2, h3, hsvc, addLog, h]
          | ok res =>
            rcases h3 with hA | hC
            · have h4 : ¬ cur.type = NodeType.CONDITIONAL_AGENT := by simp [hA]
              cases hp : plainNext edges cur.id with
              | none => simp [go, followEdge, h1, h2, hA, h4, hsvc, hp, addLog, h]
              | some edge =>
                cases hf : nodes.find? (fun n => n.id == edge.targetId) with
                | none => simp [go, followEdge, h1, h2, hA, h4, hsvc, hp, hf, addLog, h]
                | some nxt =>
                  simp [go, followEdge, h1, h2, hA, h4, hsvc, hp, hf]
                  exact ih _ _ _ (by simp [addLog, h])
            · cases hc : condNext edges cur.id res.text with
              | none => simp [go, h1, h2, hC, hsvc, hc, addLog, h]
              | some edge =>
                cases hf : nodes.find? (fun n => n.id == edge.targetId) with
                | none => simp [go, followEdge, h1, h2, hC, hsvc, hc, hf, addLog, h]
                | some nxt =>
                  simp [go, followEdge, h1, h2, hC, hsvc, hc, hf]
                  exact ih _ _ _ (by simp [addLog, h])
        · cases hp : plainNext edges cur.id with
          | none => simp [go, followEdge, h1, h2, h3, hp, addLog, h]
          | some edge =>
            cases hf : nodes.find? (fun n => n.id == edge.targetId) with
            | none => simp [go, followEdge, h1, h2, h3, hp, hf, addLog, h]
            | some nxt =>
              simp [go, followEdge, h1, h2, h3, hp, hf]
              exact ih _ _ _ (by simp [addLog, h])

/-- The loop never writes the structural part of the node list, and never
touches the edge list at all. -/
lemma go_frame (nodes : List AgentNode) (edges : List AgentEdge)
    (svc : AgentService) (clock : Nat → Nat) :
    ∀ fuel cur inp st,
      (go nodes edges svc clock fuel cur inp st).1.nodesState.map structOf =
        st.nodesState.map structOf ∧
      (go nodes edges svc clock fuel cur inp st).1.edgesState = st.edgesState := by
  intro fuel
  induction fuel with
  | zero => intro cur inp st; simp [go]
  | succ fuel ih =>
    intro cur inp st
    by_cases h1 : cur.id ∈ st.visited
    · simp [go, h1, addLog]
    · by_cases h2 : cur.type = NodeType.END
      · simp [go, h1, h2, addLog, structOf_setEndOutput]
      · by_cases h3 : cur.type = NodeType.AGENT ∨ cur.type = NodeType.CONDITIONAL_AGENT
        · cases hsvc : svc cur.description inp (cur.enableInternetSearch.getD false) with
          | error msg =>
            simp [go, h1, h2, h3, hsvc, addLog, structOf_setLastInput]
          | ok res =>
            rcases h3 with hA | hC
            · have h4 : ¬ cur.type = NodeType.CONDITIONAL_AGENT := by simp [hA]
              cases hp : plainNext edges cur.id with
              | none =>
                simp [go, followEdge, h1, h2, hA, h4, hsvc, hp, addLog,
                  structOf_setLastInput, structOf_setOutput]
              | some edge =>
                cases hf : nodes.find? (fun n => n.id == edge.targetId) with
                | none =>
                  simp [go, followEdge, h1, h2, hA, h4, hsvc, hp, hf, addLog,
                    structOf_setLastInput, structOf_setOutput]
                | some nxt =>
                  simp [go, followEdge, h1, h2, hA, h4, hsvc, hp, hf]
                  refine ⟨((ih _ _ _).1).trans ?_, ((ih _ _ _).2).trans ?_⟩
                  · simp [addLog, structOf_setLastInput, structOf_setOutput]
                  · simp [addLog]
            · cases hc : condNext edges cur.id res.text with
              | none =>
                simp [go, h1, h2, hC, hsvc, hc, addLog,
                  structOf_setLastInput, structOf_setOutput]
              | some edge =>
                cases hf : nodes.find? (fun n => n.id == edge.targetId) with
                | none =>
                  simp [go, followEdge, h1, h2, hC, hsvc, hc, hf, addLog,
                    structOf_setLastInput, structOf_setOutput]
                | some nxt =>
                  simp [go, followEdge, h1, h2, hC, hsvc, hc, hf]
                  refine ⟨((ih _ _ _).1).trans ?_, ((ih _ _ _).2).trans ?_⟩
                  · simp [addLog, structOf_setLastInput, structOf_setOutput]
                  · simp [addLog]
        · cases hp : plainNext edges cur.id with
          | none => simp [go, followEdge, h1, h2, h3, hp, addLog]
          | some edge =>
            cases hf : nodes.find? (fun n => n.id == edge.targetId) with
            | none => simp [go, followEdge, h1, h2, h3, hp, hf, addLog]
            | some nxt =>
              simp [go, followEdge, h1, h2, h3, hp, hf]
              refine ⟨((ih _ _ _).1).trans ?_, ((ih _ _ _).2).trans ?_⟩
              · simp [addLog]
              · simp [addLog]

/-- The clock feeds only the timestamps: two loop runs whose states agree on
everything except the timestamps inside the log agree on the whole
timestamp-free view of the result, whatever clocks they use. -/
lemma go_coreView (nodes : List AgentNode) (edges : List AgentEdge)
    (svc : AgentService) (c1 c2 : Nat → Nat) :
    ∀ fuel cur inp st1 st2,
      st2.nodesState = st1.nodesState → st2.edgesState = st1.edgesState →
      st2.finalOutput = st1.finalOutput → st2.nodeErrors = st1.nodeErrors →
      st2.visited = st1.visited → st2.calls = st1.calls →
      st2.log.map coreOf = st1.log.map coreOf →
      coreView (go nodes edges svc c2 fuel cur inp st2) =
        coreView (go nodes edges svc c1 fuel cur inp st1) := by
  intro fuel
  induction fuel with
  | zero =>
    intro cur inp st1 st2 hns hes hfo hne hv hca hlog
    simp [go, coreView, hns, hes, hfo, hne, hv, hca, hlog]
  | succ fuel ih =>
    intro cur inp st1 st2 hns hes hfo hne hv hca hlog
    by_cases h1 : cur.id ∈ st1.visited
    · simp [go, h1, coreView, addLog, coreOf, hns, hes, hfo, hne, hv, hca, hlog]
    · by_cases h2 : cur.type = NodeType.END
      · simp [go, h1, h2, coreView, addLog, coreOf, hns, hes, hfo, hne, hv, hca, hlog]
      · by_cases h3 : cur.type = NodeType.AGENT ∨ cur.type = NodeType.CONDITIONAL_AGENT
        · cases hsvc : svc cur.description inp (cur.enableInternetSearch.getD false) with
          | error msg =>
            simp [go, h1, h2, h3, hsvc, coreView, addLog, coreOf,
              hns, hes, hfo, hne, hv, hca, hlog]
          | ok res =>
            rcases h3 with hA | hC
            · have h4 : ¬ cur.type = NodeType.CONDITIONAL_AGENT := by simp [hA]
              cases hp : plainNext edges cur.id with
              | none =>
                simp [go, followEdge, h1, h2, hA, h4, hsvc, hp, coreView, addLog,
                  coreOf, hns, hes, hfo, hne, hv, hca, hlog]
              | some edge =>
                cases hf : nodes.find? (fun n => n.id == edge.targetId) with
                | none =>
                  simp [go, followEdge, h1, h2, hA, h4, hsvc, hp, hf, coreView,
                    addLog, coreOf, hns, hes, hfo, hne, hv, hca, hlog]
                | some nxt =>
                  simp [go, followEdge, h1, h2, hA, h4, hsvc, hp, hf,
                    hns, hes, hfo, hne, hv, hca]
                  refine ih _ _ _ _ rfl rfl rfl rfl rfl rfl ?_
                  simp [addLog, coreOf, hlog]
            · cases hc : condNext edges cur.id res.text with
              | none =>
                simp [go, h1, h2, hC, hsvc, hc, coreView, addLog, coreOf,
                  hns, hes, hfo, hne, hv, hca, hlog]
              | some edge =>
                cases hf : nodes.find? (fun n => n.id == edge.targetId) with
                | none =>
                  simp [go, followEdge, h1, h2, hC, hsvc, hc, hf, coreView,
                    addLog, coreOf, hns, hes, hfo, hne, hv, hca, hlog]
                | some nxt =>
                  simp [go, followEdge, h1, h2, hC, hsvc, hc, hf,
                    hns, hes, hfo, hne, hv, hca]
                  refine ih _ _ _ _ rfl rfl rfl rfl rfl rfl ?_
                  simp [addLog, coreOf, hlog]
        · cases hp : plainNext edges cur.id with
          | none =>
            simp [go, followEdge, h1, h2, h3, hp, coreView, addLog, coreOf,
              hns, hes, hfo, hne, hv, hca, hlog]
          | some edge =>
            cases hf : nodes.find? (fun n => n.id == edge.targetId) with
            | none =>
              simp [go, followEdge, h1, h2, h3, hp, hf, coreView, addLog, coreOf,
                hns, hes, hfo, hne, hv, hca, hlog]
            | some nxt =>
              simp [go, followEdge, h1, h2, h3, hp, hf, hns, hes, hfo, hne, hv, hca]
              refine ih _ _ _ _ rfl rfl rfl rfl rfl rfl ?_
              simp [addLog, coreOf, hlog]

/-- Pigeonhole bound for the loop: as long as the fuel exceeds the number of
nodes not yet visited, the loop cannot run out of fuel — every iteration
either halts with an explicit outcome or visits a fresh node id out of the
at most `nodes.length` ids available. -/
lemma go_ne_exhausted (nodes : List AgentNode) (edges : List AgentEdge)
    (svc : AgentService) (clock : Nat → Nat) :
    ∀ fuel cur inp st, cur ∈ nodes → st.visited.Nodup →
      (∀ v ∈ st.visited, v ∈ nodes.map AgentNode.id) →
      nodes.length < fuel + st.visited.length →
      (go nodes edges svc clock fuel cur inp st).2 ≠ .exhausted := by
  intro fuel
  induction fuel with
  | zero =>
    intro cur inp st _ hnd hsub hlen
    exfalso
    have hle : st.visited.length ≤ (nodes.map AgentNode.id).length :=
      (hnd.subperm hsub).length_le
    simp only [List.length_map] at hle
    omega
  | succ fuel ih =>
    intro cur inp st hcur hnd hsub hlen
    by_cases h1 : cur.id ∈ st.visited
    · simp [go, h1, addLog]
    · have hnd2 : (cur.id :: st.visited).Nodup := List.nodup_cons.mpr ⟨h1, hnd⟩
      have hsub2 : ∀ v ∈ cur.id :: st.visited, v ∈ nodes.map AgentNode.id := by
        intro v hv
        rcases List.mem_cons.mp hv with rfl | hv
        · exact List.mem_map_of_mem AgentNode.id hcur
        · exact hsub v hv
      have hlen2 : nodes.length < fuel + (cur.id :: st.visited).length := by
        simp only [List.length_cons]
        omega
      by_cases h2 : cur.type = NodeType.END
      · simp [go, h1, h2, addLog]
      · by_cases h3 : cur.type = NodeType.AGENT ∨ cur.type = NodeType.CONDITIONAL_AGENT
        · cases hsvc : svc cur.description inp (cur.enableInternetSearch.getD false) with
          | error msg => simp [go, h1, h2, h3, hsvc, addLog]
          | ok res =>
            rcases h3 with hA | hC
            · have h4 : ¬ cur.type = NodeType.CONDITIONAL_AGENT := by simp [hA]
              cases hp : plainNext edges cur.id with
              | none => simp [go, followEdge, h1, h2, hA, h4, hsvc, hp, addLog]
              | some edge =>
                cases hf : nodes.find? (fun n => n.id == edge.targetId) with
                | none => simp [go, followEdge, h1, h2, hA, h4, hsvc, hp, hf, addLog]
                | some nxt =>
                  simp [go, followEdge, h1, h2, hA, h4, hsvc, hp, hf]
                  exact ih _ _ _ (List.mem_of_find?_eq_some hf) hnd2 hsub2 hlen2
            · cases hc : condNext edges cur.id res.text with
              | none => simp [go, h1, h2, hC, hsvc, hc, addLog]
              | some edge =>
                cases hf : nodes.find? (fun n => n.id == edge.targetId) with
                | none => simp [go, followEdge, h1, h2, hC, hsvc, hc, hf, addLog]
                | some nxt =>
                  simp [go, followEdge, h1, h2, hC, hsvc, hc, hf]
                  exact ih _ _ _ (List.mem_of_find?_eq_some hf) hnd2 hsub2 hlen2
        · cases hp : plainNext edges cur.id with
          | none => simp [go, followEdge, h1, h2, h3, hp, addLog]
          | some edge =>
            cases hf : nodes.find? (fun n => n.id == edge.targetId) with
            | none => simp [go, followEdge, h1, h2, h3, hp, hf, addLog]
            | some nxt =>
              simp [go, followEdge, h1, h2, h3, hp, hf]
              exact ih _ _ _ (List.mem_of_find?_eq_some hf) hnd2 hsub2 hlen2

/-- `finalOutput` of a whole run is determined by the outcome: the payload on
`completed`, `none` otherwise. -/
lemma runFlow_finalOutput (nodes : List AgentNode) (edges : List AgentEdge)
    (svc : AgentService) (clock : Nat → Nat) (q : String) :
    (runFlow nodes edges svc clock q).1.finalOutput =
      (match (runFlow nodes edges svc clock q).2 with
       | .completed p => some p
       | _ => none) := by
  unfold runFlow
  by_cases ht : jsTrim q = ""
  · simp [ht, addLog]
  · cases hs : nodes.find? (fun n => n.type == NodeType.START) with
    | none => simp [ht, hs, addLog]
    | some start =>
      simp only [ht, hs, if_neg, ite_false]
      exact go_finalOutput nodes edges svc clock _ start q _ (by simp [addLog])

/-! ## Concrete fixtures for the testable properties -/

/-- A node with the default bookkeeping values used by the editor (`output`
and `lastProcessedInput` start as the empty string, search off for agent
kinds). -/
def mkNode (i : String) (t : NodeType) (d : String) : AgentNode :=
  { id := i, type := t, description := d, x := 0, y := 0, output := some "",
    lastProcessedInput := some "",
    enableInternetSearch :=
      if t = NodeType.AGENT ∨ t = NodeType.CONDITIONAL_AGENT then some false else none,
    groundingMetadata := [] }

def mkEdge (i s t k : String) : AgentEdge :=
  { id := i, sourceId := s, targetId := t, conditionKeyword := k }

/-- Stub service returning its input unchanged. -/
def svcEcho : AgentService := fun _ inp _ => .ok { text := inp, groundingMetadata := none }

/-- Stub service that always rejects. -/
def svcBoom : AgentService := fun _ _ _ => .error "boom"

/-- Stub service answering the branching fixtures with a YES decision. -/
def svcYes : AgentService :=
  fun _ _ _ => .ok { text := "Decision: YES please", groundingMetadata := none }

/-- Stub service answering the branching fixtures with an unmatched decision. -/
def svcMaybe : AgentService :=
  fun _ _ _ => .ok { text := "Decision: MAYBE", groundingMetadata := none }

/-- The identity clock for concrete runs. -/
def clock0 : Nat → Nat := fun n => n

/-- P2 happy-path graph: `START -> AGENT -> END`. -/
def p2nodes : List AgentNode :=
  [mkNode "s" .START "Workflow Start", mkNode "a" .AGENT "uppercase",
   mkNode "e" .END "Workflow End"]

def p2edges : List AgentEdge := [mkEdge "e1" "s" "a" "", mkEdge "e2" "a" "e" ""]

/-- P3/P4 branching graph: `START -> COND -> {A_end via "YES", B_end via "NO"}`. -/
def p3nodes : List AgentNode :=
  [mkNode "s" .START "Workflow Start", mkNode "c" .CONDITIONAL_AGENT "decide",
   mkNode "ae" .END "A end", mkNode "be" .END "B end"]

def p3edges : List AgentEdge :=
  [mkEdge "e1" "s" "c" "", mkEdge "e2" "c" "ae" "YES", mkEdge "e3" "c" "be" "NO"]

/-- P5 cycle graph: `START -> A -> B -> A`. -/
def p5nodes : List AgentNode :=
  [mkNode "s" .START "Workflow Start", mkNode "a" .AGENT "Agent A",
   mkNode "b" .AGENT "Agent B"]

def p5edges : List AgentEdge :=
  [mkEdge "e1" "s" "a" "", mkEdge "e2" "a" "b" "", mkEdge "e3" "b" "a" ""]

/-- A graph with two START nodes; only the first one has an outgoing edge. -/
def twoStartNodes : List AgentNode :=
  [mkNode "s1" .START "Start one", mkNode "s2" .START "Start two",
   mkNode "e" .END "Workflow End"]

def twoStartEdges : List AgentEdge := [mkEdge "e1" "s1" "e" ""]

/-- A graph whose START node has two outgoing edges (first to END, second to
an agent). -/
def multiEdgeNodes : List AgentNode :=
  [mkNode "s" .START "Workflow Start", mkNode "e" .END "Workflow End",
   mkNode "a" .AGENT "orphan agent"]

def multiEdgeEdges : List AgentEdge := [mkEdge "e1" "s" "e" "", mkEdge "e2" "s" "a" ""]

/-- A graph whose plain AGENT node has two outgoing edges. -/
def multiEdgeAgentNodes : List AgentNode :=
  [mkNode "s" .START "Workflow Start", mkNode "a" .AGENT "fork agent",
   mkNode "e1end" .END "First end", mkNode "e2end" .END "Second end"]

def multiEdgeAgentEdges : List AgentEdge :=
  [mkEdge "e1" "s" "a" "", mkEdge "e2" "a" "e1end" "", mkEdge "e3" "a" "e2end" ""]

/-- A non-empty engine state used to exercise single loop steps directly. -/
def stepState : EngState :=
  { nodesState := p3nodes, edgesState := p3edges,
    log := [{ timestamp := 0, message := "Starting flow with question: \"go\"",
              status := .info, nodeId := none, groundingMetadata := none }],
    finalOutput := none, nodeErrors := [], visited := ["s"], calls := [] }

/-! ## Claims -/

/-- Claim C1 (corrected).  The iteration bound of `nodes.length + 10` is
never exhausted: on every graph and input the run ends in `completed` or in
one of the classified failures strictly before the fuel runs out, because an
iteration either halts or visits a fresh node id and the cycle check fires
once all ids are used up.  (The source has no `FlowTooLong` arm at all; see
the counterexample for what the exhaustion exit would do.) -/
theorem flow_bound_never_exhausted :
    ∀ (nodes : List AgentNode) (edges : List AgentEdge) (svc : AgentService)
      (clock : Nat → Nat) (q : String),
      (runFlow nodes edges svc clock q).2 ≠ Outcome.exhausted := by
  intro nodes edges svc clock q
  unfold runFlow
  by_cases ht : jsTrim q = ""
  · simp [ht]
  · cases hs : nodes.find? (fun n => n.type == NodeType.START) with
    | none => simp [ht, hs]
    | some start =>
      simp only [ht, hs, if_neg, ite_false]
      refine go_ne_exhausted nodes edges svc clock (nodes.length + 10) start q _
        (List.mem_of_find?_eq_some hs) ?_ ?_ ?_
      · simp [addLog]
      · simp [addLog]
      · simp [addLog]

/-- Claim C1, counterexample to the claim as stated: the exhaustion
exit (fuel `0`, the fall-through of `for (i = 0; i < nodes.length + 10; ...)`)
emits no event whatsoever — the state (in particular the log) is returned
unchanged and no `FlowTooLong` failure exists — the run would end silently,
contradicting the stated `FlowTooLong` behaviour. -/
theorem exhaustion_exit_emits_no_event :
    go p2nodes p2edges svcEcho clock0 0 (mkNode "s" .START "Workflow Start") "hi"
      stepState = (stepState, Outcome.exhausted) ∧
    (go p2nodes p2edges svcEcho clock0 0 (mkNode "s" .START "Workflow Start") "hi"
      stepState).1.log = stepState.log := by
  exact ⟨rfl, rfl⟩

/-- Claim C10 (confirmed).  The final output of a run is `none` unless the run
completed by reaching END, in which case it is exactly the payload that END
received (the `completed` payload); every failing run leaves it unset. -/
theorem final_output_only_at_end :
    ∀ (nodes : List AgentNode) (edges : List AgentEdge) (svc : AgentService)
      (clock : Nat → Nat) (q : String),
      (runFlow nodes edges svc clock q).1.finalOutput =
        (match (runFlow nodes edges svc clock q).2 with
         | .completed p => some p
         | _ => none) := by
  intro nodes edges svc clock q
  exact runFlow_finalOutput nodes edges svc clock q

/-- Claim C2 (corrected).  The engine fails fast on a blank initial payload
(before any reset or node access), and fails fast when no START node exists
(after the reset and the starting log entry, but with no node visited and no
invocation performed).  A graph with more than one START node, however, is
not rejected: the engine silently uses the first START in the node list and
proceeds — the concrete two-START graph completes normally, starting at
`s1`. -/
theorem precondition_checks :
    (∀ (nodes : List AgentNode) (edges : List AgentEdge) (svc : AgentService)
       (clock : Nat → Nat) (q : String), jsTrim q = "" →
       runFlow nodes edges svc clock q =
         ({ nodesState := nodes, edgesState := edges,
            log := [{ timestamp := clock 0,
                      message := "Initial question cannot be empty.",
                      status := .error, nodeId := none, groundingMetadata := none }],
            finalOutput := none, nodeErrors := [], visited := [], calls := [] },
          Outcome.emptyInput)) ∧
    (∀ (nodes : List AgentNode) (edges : List AgentEdge) (svc : AgentService)
       (clock : Nat → Nat) (q : String), jsTrim q ≠ "" →
       nodes.countP (fun n => n.type == NodeType.START) = 0 →
       runFlow nodes edges svc clock q =
         ({ nodesState := resetNodes nodes, edgesState := edges,
            log := [{ timestamp := clock 0,
                      message := "Starting flow with question: \"" ++ q ++ "\"",
                      status := .info, nodeId := none, groundingMetadata := none },
                    { timestamp := clock 1,
                      message := "START node not found.",
                      status := .error, nodeId := none, groundingMetadata := none }],
            finalOutput := none, nodeErrors := [], visited := [], calls := [] },
          Outcome.startMissing)) ∧
    (runFlow twoStartNodes twoStartEdges svcEcho clock0 "hi").2 =
      Outcome.completed "hi" ∧
    (runFlow twoStartNodes twoStartEdges svcEcho clock0 "hi").1.visited = ["e", "s1"] := by
  refine ⟨?_, ?_, by decide, by decide⟩
  · intro nodes edges svc clock q ht
    simp [runFlow, ht, addLog]
  · intro nodes edges svc clock q ht hcount
    have hfind : nodes.find? (fun n => n.type == NodeType.START) = none := by
      refine List.find?_eq_none.mpr ?_
      intro a ha
      have := List.countP_eq_zero.mp hcount a ha
      simpa using this
    simp [runFlow, ht, hfind, addLog]

/-- Claim C2, counterexample to the claim as stated: a graph with two START
nodes is not rejected — the run visits nodes (the visited set is non-empty)
and ends in `completed`, not in any failure. -/
theorem two_start_nodes_run_completes :
    (runFlow twoStartNodes twoStartEdges svcEcho clock0 "hi").1.visited ≠ [] ∧
    (runFlow twoStartNodes twoStartEdges svcEcho clock0 "hi").2 =
      Outcome.completed "hi" := by
  exact ⟨by decide, by decide⟩

/-- Claim C2 witness: the two general guards applied at concrete inputs. -/
theorem precondition_checks_witness :
    (runFlow p2nodes p2edges svcEcho clock0 "   ").2 = Outcome.emptyInput ∧
    (runFlow [mkNode "a" .AGENT "only agent"] [] svcEcho clock0 "hi").2 =
      Outcome.startMissing := by
  constructor
  · have h := precondition_checks.1 p2nodes p2edges svcEcho clock0 "   " (by decide)
    rw [h]
  · have h := precondition_checks.2.1 [mkNode "a" .AGENT "only agent"] [] svcEcho
      clock0 "hi" (by decide) (by decide)
    rw [h]

/-- Claim C3 (corrected).  The run never writes the structural part of the
graph: for every node the `id`, `type`, `description`, position and search flag,
and the entire edge list, are unchanged by any run.  (The bookkeeping fields
`output`, `lastProcessedInput`, `groundingMetadata` of the node objects are
rewritten — see the counterexample.) -/
theorem graph_structure_preserved :
    ∀ (nodes : List AgentNode) (edges : List AgentEdge) (svc : AgentService)
      (clock : Nat → Nat) (q : String),
      (runFlow nodes edges svc clock q).1.nodesState.map structOf =
        nodes.map structOf ∧
      (runFlow nodes edges svc clock q).1.edgesState = edges := by
  intro nodes edges svc clock q
  unfold runFlow
  by_cases ht : jsTrim q = ""
  · simp [ht, addLog]
  · cases hs : nodes.find? (fun n => n.type == NodeType.START) with
    | none => simp [ht, hs, addLog, structOf_resetNodes]
    | some start =>
      simp only [ht, hs, if_neg, ite_false]
      refine ⟨((go_frame nodes edges svc clock _ start q _).1).trans ?_,
              ((go_frame nodes edges svc clock _ start q _).2).trans ?_⟩
      · simp [addLog, structOf_resetNodes]
      · simp [addLog]

/-- Claim C3, counterexample to the claim as stated: the run rewrites node
fields.  After the P2 happy-path run the `output` fields of the three nodes
are `[none, some "hello", some "hello"]` (START was reset and never written,
the agent and END got the payload), whereas before the run they were all
`some ""` — so the nodes are not identical before and after. -/
theorem node_bookkeeping_mutated :
    (runFlow p2nodes p2edges svcEcho clock0 "hello").1.nodesState.map
        AgentNode.output = [none, some "hello", some "hello"] ∧
    p2nodes.map AgentNode.output = [some "", some "", some ""] ∧
    (runFlow p2nodes p2edges svcEcho clock0 "hello").1.nodesState ≠ p2nodes := by
  refine ⟨by decide, by decide, by decide⟩

/-- Claim C4 (confirmed).  Branch selection at a CONDITIONAL_AGENT node with
output `t`: the selected edge is the first outgoing edge in declaration
order whose keyword is non-empty and occurs case-insensitively in `t` (all
earlier outgoing edges fail the predicate, so on a double match the earlier
edge wins, and an empty-keyword edge is never selected); if no outgoing edge
satisfies the predicate the step fails with `noMatchingBranch` at that node.
Concretely, the P3 stub output "Decision: YES please" selects the "YES" edge
and reaches the END behind it, the match is case-insensitive, and the P4
stub output "Decision: MAYBE" fails with `noMatchingBranch` at the node. -/
theorem conditional_branch_selection :
    (∀ (edges : List AgentEdge) (srcId t : String) (e : AgentEdge),
        condNext edges srcId t = some e →
        condPred t e = true ∧ e.conditionKeyword ≠ "" ∧
        jsIncludes t e.conditionKeyword = true ∧
        ∃ pre post, (edges.filter fun x => x.sourceId == srcId) = pre ++ e :: post ∧
          ∀ x ∈ pre, condPred t x = false) ∧
    (∀ (edges : List AgentEdge) (srcId t : String),
        condNext edges srcId t = none →
        ∀ e ∈ edges.filter (fun x => x.sourceId == srcId), condPred t e = false) ∧
    (∀ (nodes : List AgentNode) (edges : List AgentEdge) (svc : AgentService)
       (clock : Nat → Nat) (fuel : Nat) (cur : AgentNode) (inp : String)
       (st : EngState) (res : AgentResult),
        cur.type = NodeType.CONDITIONAL_AGENT → cur.id ∉ st.visited →
        svc cur.description inp (cur.enableInternetSearch.getD false) =
          Except.ok res →
        condNext edges cur.id res.text = none →
        (go nodes edges svc clock (fuel + 1) cur inp st).2 =
          Outcome.noMatchingBranch cur.id) ∧
    jsIncludes "Decision: YES please" "yes" = true ∧
    (runFlow p3nodes p3edges svcYes clock0 "ask").2 =
      Outcome.completed "Decision: YES please" ∧
    (runFlow p3nodes p3edges svcYes clock0 "ask").1.visited = ["ae", "c", "s"] ∧
    (runFlow p3nodes p3edges svcMaybe clock0 "ask").2 =
      Outcome.noMatchingBranch "c" := by
  refine ⟨?_, ?_, ?_, by decide, by decide, by decide, by decide⟩
  · intro edges srcId t e h
    have hpred : condPred t e = true := List.find?_some h
    obtain ⟨pre, post, hsplit, _, hpre⟩ := find?_first_spec (condPred t) _ e h
    refine ⟨hpred, ?_, ?_, pre, post, hsplit, hpre⟩
    · have := (Bool.and_eq_true _ _).mp hpred
      simpa [bne_iff_ne] using this.1
    · exact ((Bool.and_eq_true _ _).mp hpred).2
  · intro edges srcId t h e he
    have := List.find?_eq_none.mp h e he
    simpa using this
  · intro nodes edges svc clock fuel cur inp st res hC h1 hsvc hc
    simp [go, h1, hC, hsvc, hc, addLog]

/-- Claim C4 witness: the no-match step applied concretely — processing the
P4 conditional node whose stub output matches no keyword fails the run with
`noMatchingBranch` at that node. -/
theorem conditional_branch_selection_witness :
    (go p3nodes p3edges svcMaybe clock0 (4 + 1)
      (mkNode "c" .CONDITIONAL_AGENT "decide") "ask" stepState).2 =
      Outcome.noMatchingBranch "c" := by
  have h := conditional_branch_selection.2.2.1 p3nodes p3edges svcMaybe clock0 4
    (mkNode "c" .CONDITIONAL_AGENT "decide") "ask" stepState
    { text := "Decision: MAYBE", groundingMetadata := none }
    (by decide) (by decide) rfl (by decide)
  exact h

/-- Claim C5 (confirmed).  Arriving at a node whose id is already in the
visited set halts the run immediately with `cycleDetected` at that node: the
only state changes are the one cycle log entry and the node-error mark — in
particular no invocation is performed (`calls` is unchanged), so the node is
not processed again.  Concretely, on `START -> A -> B -> A` the run ends
`cycleDetected` at `A`, and the call trace shows A and B each invoked
exactly once (A is never executed a third time). -/
theorem cycle_detection_semantics :
    (∀ (nodes : List AgentNode) (edges : List AgentEdge) (svc : AgentService)
       (clock : Nat → Nat) (fuel : Nat) (cur : AgentNode) (inp : String)
       (st : EngState), cur.id ∈ st.visited →
       go nodes edges svc clock (fuel + 1) cur inp st =
         ({ st with
             log := st.log ++
               [{ timestamp := clock st.log.length,
                  message := "Cycle detected at node " ++ cur.id ++ ". Halting.",
                  status := .error, nodeId := some cur.id,
                  groundingMetadata := none }],
             nodeErrors := st.nodeErrors ++ [cur.id] },
          Outcome.cycleDetected cur.id)) ∧
    (runFlow p5nodes p5edges svcEcho clock0 "hi").2 = Outcome.cycleDetected "a" ∧
    (runFlow p5nodes p5edges svcEcho clock0 "hi").1.calls =
      [("Agent A", "hi", false), ("Agent B", "hi", false)] := by
  refine ⟨?_, by decide, by decide⟩
  intro nodes edges svc clock fuel cur inp st h
  simp [go, h, addLog]

/-- Claim C5 witness: the cycle step applied concretely — re-arriving at a
node already visited fails with `cycleDetected` there. -/
theorem cycle_detection_semantics_witness :
    (go p5nodes p5edges svcEcho clock0 (0 + 1) (mkNode "s" .START "Workflow Start")
      "x" stepState).2 = Outcome.cycleDetected "s" := by
  have h := cycle_detection_semantics.1 p5nodes p5edges svcEcho clock0 0
    (mkNode "s" .START "Workflow Start") "x" stepState (by decide)
  rw [h]
  rfl

/-- Claim C6 (corrected).  The engine does not reject a non-conditional node
with several outgoing edges: it silently follows the first outgoing edge in
edge-list order — the concrete graph whose AGENT node has two outgoing
edges completes via the first edge (reaching `e1end`, never `e2end`) with no
error recorded.  What does exist is an editor-level guard: the connection
handler refuses to add a second outgoing edge from a START or AGENT node,
leaving the edge list unchanged and logging an error. -/
theorem multi_edge_policy :
    (∀ (nodes : List AgentNode) (edges : List AgentEdge)
       (fromId toId newId : String) (src tgt : AgentNode),
        nodes.find? (fun n => n.id == fromId) = some src →
        nodes.find? (fun n => n.id == toId) = some tgt →
        (src.type = NodeType.START ∨ src.type = NodeType.AGENT) →
        tgt.type ≠ NodeType.START →
        (edges.find? fun e => e.sourceId == fromId).isSome = true →
        tryConnect nodes edges fromId toId newId =
          (edges,
           src.type.spaced ++
             " nodes can only have one outgoing connection. Delete existing one first.",
           LogStatus.error)) ∧
    (runFlow multiEdgeAgentNodes multiEdgeAgentEdges svcEcho clock0 "hi").2 =
      Outcome.completed "hi" ∧
    (runFlow multiEdgeAgentNodes multiEdgeAgentEdges svcEcho clock0 "hi").1.visited =
      ["e1end", "a", "s"] ∧
    (runFlow multiEdgeAgentNodes multiEdgeAgentEdges svcEcho clock0 "hi").1.nodeErrors =
      [] := by
  refine ⟨?_, by decide, by decide, by decide⟩
  intro nodes edges fromId toId newId src tgt hsrc htgt hsty htty hsome
  have hEND : src.type ≠ NodeType.END := by
    rcases hsty with h | h <;> simp [h]
  simp [tryConnect, hsrc, htgt, hEND, htty, hsty, hsome]

/-- Claim C6, counterexample to the claim as stated: a START node with two
outgoing edges is not rejected as malformed — the run completes by
following the first edge, with no error logged against any node. -/
theorem engine_follows_first_edge :
    (runFlow multiEdgeNodes multiEdgeEdges svcEcho clock0 "hi").2 =
      Outcome.completed "hi" ∧
    (runFlow multiEdgeNodes multiEdgeEdges svcEcho clock0 "hi").1.nodeErrors = [] := by
  exact ⟨by decide, by decide⟩

/-- Claim C6 witness: the editor guard applied concretely — trying to connect
the P2 START node (which already has an outgoing edge) to the END node adds
no edge. -/
theorem multi_edge_policy_witness :
    tryConnect p2nodes p2edges "s" "e" "fresh" =
      (p2edges,
       "START nodes can only have one outgoing connection. Delete existing one first.",
       LogStatus.error) := by
  have h := multi_edge_policy.1 p2nodes p2edges "s" "e" "fresh"
    (mkNode "s" .START "Workflow Start") (mkNode "e" .END "Workflow End")
    (by decide) (by decide) (by decide) (by decide) (by decide)
  rw [h]
  rfl

/-- Claim C7 (corrected).  Two executions of the same run (same graph, same
input, same deterministic service) differing only in the wall clock agree on
everything except the timestamps inside the log entries: same outcome, same
final output, same call trace, same node states and errors, and log entries
identical in message, status, node id and grounding — but not in the
timestamp field, which follows the clock (see the counterexample). -/
theorem determinism_modulo_timestamps :
    ∀ (nodes : List AgentNode) (edges : List AgentEdge) (svc : AgentService)
      (c1 c2 : Nat → Nat) (q : String),
      coreView (runFlow nodes edges svc c2 q) =
        coreView (runFlow nodes edges svc c1 q) := by
  intro nodes edges svc c1 c2 q
  unfold runFlow
  by_cases ht : jsTrim q = ""
  · simp [ht, coreView, addLog, coreOf]
  · cases hs : nodes.find? (fun n => n.type == NodeType.START) with
    | none => simp [ht, hs, coreView, addLog, coreOf]
    | some start =>
      simp only [ht, hs, if_neg, ite_false]
      refine go_coreView nodes edges svc c1 c2 _ start q _ _ ?_ ?_ ?_ ?_ ?_ ?_ ?_
      all_goals simp [addLog, coreOf]

/-- Claim C7, counterexample to the claim as stated: with two different
clocks (two wall-clock schedules) the event sequences of the two runs are not
identical — the timestamp field differs — even though graph, input and
service are fixed. -/
theorem timestamp_nondeterminism :
    (runFlow p2nodes p2edges svcEcho (fun n => n) "hello").1.log ≠
      (runFlow p2nodes p2edges svcEcho (fun n => n + 1) "hello").1.log := by
  decide

/-- Claim C8 (confirmed).  P2 happy path: on `START -> AGENT -> END` with the
echo stub and input "hello", the run completes with final output "hello",
the log is exactly the three expected entries, and exactly one of them is a
`NodeOutput` entry.  In general, whenever a run completes, its final output
is exactly the payload the END node received (the `completed` payload). -/
theorem happy_path_end_semantics :
    (runFlow p2nodes p2edges svcEcho clock0 "hello").2 = Outcome.completed "hello" ∧
    (runFlow p2nodes p2edges svcEcho clock0 "hello").1.finalOutput = some "hello" ∧
    (runFlow p2nodes p2edges svcEcho clock0 "hello").1.log =
      [{ timestamp := 0, message := "Starting flow with question: \"hello\"",
         status := .info, nodeId := none, groundingMetadata := none },
       { timestamp := 1, message := "AGENT: \"hello...\"",
         status := .success, nodeId := some "a", groundingMetadata := none },
       { timestamp := 2, message := "Reached END node. Final output set.",
         status := .success, nodeId := some "e", groundingMetadata := none }] ∧
    (runFlow p2nodes p2edges svcEcho clock0 "hello").1.log.countP isNodeOutput = 1 ∧
    (∀ (nodes : List AgentNode) (edges : List AgentEdge) (svc : AgentService)
       (clock : Nat → Nat) (q p : String),
        (runFlow nodes edges svc clock q).2 = Outcome.completed p →
        (runFlow nodes edges svc clock q).1.finalOutput = some p) := by
  refine ⟨by decide, by decide, by decide, by decide, ?_⟩
  intro nodes edges svc clock q p h
  rw [runFlow_finalOutput, h]

/-- Claim C8 witness: the END-payload rule applied at the concrete P2 run. -/
theorem happy_path_end_semantics_witness :
    (runFlow p2nodes p2edges svcEcho clock0 "hello").1.finalOutput = some "hello" :=
  happy_path_end_semantics.2.2.2.2 p2nodes p2edges svcEcho clock0 "hello" "hello"
    (by decide)

/-- Claim C9 (confirmed).  When the service rejects at an AGENT or
CONDITIONAL_AGENT node, the step halts the run with `invocationFailed` at
that node; the whole effect is: the node is marked visited, its
`lastProcessedInput` recorded, exactly one invocation appended to the call
trace (no retry), one error log entry carrying the underlying message, and
the node-error mark — nothing else, so no further node is reached.
Concretely, the P2 run with the rejecting stub fails at the agent node with
exactly one call and the "boom" message in the error entry. -/
theorem invocation_failure_semantics :
    (∀ (nodes : List AgentNode) (edges : List AgentEdge) (svc : AgentService)
       (clock : Nat → Nat) (fuel : Nat) (cur : AgentNode) (inp msg : String)
       (st : EngState),
        (cur.type = NodeType.AGENT ∨ cur.type = NodeType.CONDITIONAL_AGENT) →
        cur.id ∉ st.visited →
        svc cur.description inp (cur.enableInternetSearch.getD false) =
          Except.error msg →
        go nodes edges svc clock (fuel + 1) cur inp st =
          ({ st with
              visited := cur.id :: st.visited,
              nodesState := setLastInput st.nodesState cur.id inp,
              calls := st.calls ++
                [(cur.description, inp, cur.enableInternetSearch.getD false)],
              log := st.log ++
                [{ timestamp := clock st.log.length,
                   message := "Error processing agent \x27" ++ cur.description ++
                     "\x27: " ++ msg,
                   status := .error, nodeId := some cur.id,
                   groundingMetadata := none }],
              nodeErrors := st.nodeErrors ++ [cur.id] },
           Outcome.invocationFailed cur.id)) ∧
    (runFlow p2nodes p2edges svcBoom clock0 "hi").2 = Outcome.invocationFailed "a" ∧
    (runFlow p2nodes p2edges svcBoom clock0 "hi").1.calls =
      [("uppercase", "hi", false)] ∧
    (runFlow p2nodes p2edges svcBoom clock0 "hi").1.log =
      [{ timestamp := 0, message := "Starting flow with question: \"hi\"",
         status := .info, nodeId := none, groundingMetadata := none },
       { timestamp := 1, message := "Error processing agent \x27uppercase\x27: boom",
         status := .error, nodeId := some "a", groundingMetadata := none }] := by
  refine ⟨?_, by decide, by decide, by decide⟩
  intro nodes edges svc clock fuel cur inp msg st htype h1 hsvc
  have h2 : ¬ cur.type = NodeType.END := by
    rcases htype with h | h <;> simp [h]
  simp [go, h1, h2, htype, hsvc, addLog]

/-- Claim C9 witness: the invocation-failure step applied concretely — the
rejecting stub at the P2 agent node fails the run with `invocationFailed`
there. -/
theorem invocation_failure_semantics_witness :
    (go p2nodes p2edges svcBoom clock0 (3 + 1) (mkNode "a" .AGENT "uppercase")
      "hi" stepState).2 = Outcome.invocationFailed "a" := by
  have h := invocation_failure_semantics.1 p2nodes p2edges svcBoom clock0 3
    (mkNode "a" .AGENT "uppercase") "hi" "boom" stepState
    (by decide) (by decide) rfl
  rw [h]
  rfl

end AgenticFlow
